import Mathlib

/-!
Verification development for the Mercury finance notification bot
(`mercury_finance_bot.py`). The Python source is shallowly embedded:

* a transaction dict becomes the structure `Tx`, with `Option` fields
  for keys the code reads via `dict.get` (and for `createdAt` / `amount`,
  which the code reads with raising `tx[...]` lookups);
* monetary amounts (Python floats holding dollar values) are modelled as
  exact integer cents, so `Int` stands for the amount and
  `"$%,.2f" % abs(amount)` becomes `moneyFmt`;
* `datetime.fromisoformat` is modelled by `pyParseIso` on the ISO-8601
  grammar `YYYY-MM-DD[*HH:MM:SS[.fff|.ffffff][+HH:MM]]` that the bot's
  inputs use, and `strftime("%-I:%M %p on %B %d, %Y")` by `pyStrftime`;
* the notification pipeline `notify_new_transactions` becomes a pure
  function over an abstract fetch function, a delivery oracle telling
  which webhook posts succeed, and the seen-state mapping; a Python
  exception raised by `send_to_slack` is modelled by the `ok`/`saved`
  flags being `false` (the run stops, `save_state` never executes);
* the seen sets (`set` of ids) are modelled as lists consumed only
  through membership, with `set.add` as duplicate-free insertion.
-/

namespace MercuryBot

/-! ### Small string and number helpers -/

/-- Two-digit zero padding, as `%M`, `%d` in `strftime` and the cents part
of `%.2f`. -/
def pad2 (n : Nat) : String :=
  if n < 10 then "0" ++ toString n else toString n

/-- Insert a comma every three digits, as the `,` flag of Python's
`format`; input is the reversed digit list. -/
def groupRev : List Char → List Char
  | a :: b :: c :: d :: rest => a :: b :: c :: ',' :: groupRev (d :: rest)
  | l => l

/-- Decimal digits of `n` with thousands separators, as `f"{n:,}"`. -/
def commaGroup (n : Nat) : String :=
  String.mk (groupRev (Nat.toDigits 10 n).reverse).reverse

/-- `f"{abs(amount):,.2f}"` on an amount of `cents` cents. -/
def moneyFmt (cents : Nat) : String :=
  commaGroup (cents / 100) ++ "." ++ pad2 (cents % 100)

/-- Python string truthiness of an optional string (`None` and `""` are
falsy), used by `if tx.get("note"):` and the `dashboardLink` walrus test. -/
def truthy : Option String → Bool
  | some s => s != ""
  | none => false

/-- `"\n".join(parts)`. -/
def joinNl : List String → String
  | [] => ""
  | [p] => p
  | p :: q :: rest => p ++ "\n" ++ joinNl (q :: rest)

/-- `date_str.replace("Z", "+00:00")`: every occurrence of the one-character
pattern `"Z"` is replaced. -/
def replaceZ (s : String) : String :=
  String.mk (s.toList.foldr
    (fun c acc => if c = 'Z' then '+' :: '0' :: '0' :: ':' :: '0' :: '0' :: acc else c :: acc) [])

/-- Does `pat` occur at the start of `l`? -/
def listStarts : List Char → List Char → Bool
  | [], _ => true
  | _ :: _, [] => false
  | p :: ps, c :: cs => p = c && listStarts ps cs

/-- Does `pat` occur anywhere in `l`? -/
def listHasSub (pat : List Char) : List Char → Bool
  | [] => listStarts pat []
  | c :: rest => listStarts pat (c :: rest) || listHasSub pat rest

/-- String prefix test (on the character model). -/
def strStarts (s pat : String) : Bool := listStarts pat.toList s.toList

/-- String substring test (on the character model). -/
def strHasSub (s pat : String) : Bool := listHasSub pat.toList s.toList

/-! ### Model of `datetime.fromisoformat` and `strftime` -/

/-- The fields of a parsed Python `datetime`, with the UTC offset of an
aware value in minutes. -/
structure PyDateTime where
  year : Nat
  month : Nat
  day : Nat
  hour : Nat
  minute : Nat
  second : Nat
  microsecond : Nat
  tzOffsetMin : Option Int
  deriving Repr, DecidableEq

def digitVal (c : Char) : Nat := c.toNat - 48

/-- Read exactly two decimal digits. -/
def read2 : List Char → Option (Nat × List Char)
  | a :: b :: rest =>
    if a.isDigit && b.isDigit then some (digitVal a * 10 + digitVal b, rest) else none
  | _ => none

/-- Read exactly four decimal digits. -/
def read4 : List Char → Option (Nat × List Char)
  | a :: b :: c :: d :: rest =>
    if a.isDigit && b.isDigit && c.isDigit && d.isDigit then
      some (((digitVal a * 10 + digitVal b) * 10 + digitVal c) * 10 + digitVal d, rest)
    else none
  | _ => none

def expectChar (c : Char) : List Char → Option (List Char)
  | x :: rest => if x = c then some rest else none
  | [] => none

def isLeap (y : Nat) : Bool := (y % 4 == 0 && y % 100 != 0) || y % 400 == 0

def daysInMonth (y m : Nat) : Nat :=
  if m = 2 then (if isLeap y then 29 else 28)
  else if m = 4 ∨ m = 6 ∨ m = 9 ∨ m = 11 then 30
  else 31

/-- Optional fractional-seconds part: `.fff` or `.ffffff` (the grammar
`fromisoformat` accepts), returning microseconds. -/
def readFrac : List Char → Option (Nat × List Char)
  | '.' :: rest =>
    let ds := rest.takeWhile Char.isDigit
    let rest' := rest.dropWhile Char.isDigit
    let v := ds.foldl (fun n c => n * 10 + digitVal c) 0
    if ds.length = 3 then some (v * 1000, rest')
    else if ds.length = 6 then some (v, rest')
    else none
  | l => some (0, l)

/-- A `±HH:MM` UTC offset, in minutes. -/
def readOffsetSigned : List Char → Option (Int × List Char)
  | c :: rest =>
    if c = '+' ∨ c = '-' then
      match read2 rest with
      | some (oh, r2) =>
        match expectChar ':' r2 with
        | some r3 =>
          match read2 r3 with
          | some (om, r4) =>
            if oh ≤ 23 ∧ om ≤ 59 then
              some ((if c = '-' then -1 else 1) * ((oh * 60 + om : Nat) : Int), r4)
            else none
          | none => none
        | none => none
      | none => none
    else none
  | [] => none

/-- Model of `datetime.fromisoformat` on the grammar
`YYYY-MM-DD[*HH:MM:SS[.fff|.ffffff][+HH:MM]]` (any single separator
character between date and time, field ranges validated as CPython does). -/
def pyParseIso (s : String) : Option PyDateTime := do
  let (y, r1) ← read4 s.toList
  let r2 ← expectChar '-' r1
  let (m, r3) ← read2 r2
  let r4 ← expectChar '-' r3
  let (d, r5) ← read2 r4
  if 1 ≤ y ∧ 1 ≤ m ∧ m ≤ 12 ∧ 1 ≤ d ∧ d ≤ daysInMonth y m then
    match r5 with
    | [] => some ⟨y, m, d, 0, 0, 0, 0, none⟩
    | _ :: r6 => do
      let (hh, r7) ← read2 r6
      let r8 ← expectChar ':' r7
      let (mm, r9) ← read2 r8
      let r10 ← expectChar ':' r9
      let (ss, r11) ← read2 r10
      if hh ≤ 23 ∧ mm ≤ 59 ∧ ss ≤ 59 then
        let (us, r12) ← readFrac r11
        match r12 with
        | [] => some ⟨y, m, d, hh, mm, ss, us, none⟩
        | _ :: _ => do
          let (off, r13) ← readOffsetSigned r12
          if r13 = [] then some ⟨y, m, d, hh, mm, ss, us, some off⟩ else none
      else none
  else none

def monthName : Nat → String
  | 1 => "January" | 2 => "February" | 3 => "March" | 4 => "April"
  | 5 => "May" | 6 => "June" | 7 => "July" | 8 => "August"
  | 9 => "September" | 10 => "October" | 11 => "November" | 12 => "December"
  | _ => ""

/-- `dt.strftime("%-I:%M %p on %B %d, %Y")`: the datetime's own wall-clock
fields rendered 12-hour; no offset arithmetic is performed (Python
`strftime` formats an aware datetime in its own time zone). -/
def pyStrftime (dt : PyDateTime) : String :=
  let h12 := if dt.hour % 12 = 0 then 12 else dt.hour % 12
  let ampm := if dt.hour < 12 then "AM" else "PM"
  toString h12 ++ ":" ++ pad2 dt.minute ++ " " ++ ampm ++ " on " ++
    monthName dt.month ++ " " ++ pad2 dt.day ++ ", " ++ toString dt.year

/-! ### The transaction record and the formatter -/

/-- One Mercury transaction record, restricted to the keys the bot
consumes. `createdAt` and `amount` are `Option` because the code reads
them with raising `tx["..."]` lookups; the remaining keys are read with
defaulting `tx.get`. `counterpartyId` is carried by the API record but
never read by the code. -/
structure Tx where
  id : String
  amount : Option Int := none
  createdAt : Option String := none
  counterpartyId : Option String := none
  counterpartyName : Option String := none
  kind : Option String := none
  status : Option String := none
  note : Option String := none
  dashboardLink : Option String := none
  deriving Repr, DecidableEq

/-- The `kind_emoji` dict lookup `.get(tx.get("kind"), "❓")`. -/
def kind_emoji_of : Option String → String
  | some "internalTransfer" => "🔁"
  | some "outgoingPayment" => "📤"
  | some "incomingDomesticWire" => "🏦"
  | some "creditCardTransaction" => "🧾"
  | some "other" => "🧩"
  | _ => "❓"

/-- The `status_emoji` dict lookup, applied to `tx.get("status", "unknown")`. -/
def status_emoji_of : String → String
  | "pending" => "⏳"
  | "sent" => "✅"
  | "cancelled" => "🚫"
  | "failed" => "❌"
  | _ => "❓"

/-- Lines 67–71 of the source: parse the (Z-normalised) timestamp and
render it, falling back to the raw string when parsing fails. -/
def formatted_date_of (date_str : String) : String :=
  match pyParseIso (replaceZ date_str) with
  | some dt => pyStrftime dt
  | none => date_str

/-- Lines 73–105 of the source after the two raising lookups: the message
body built from the amount (in cents) and the defaulted optional fields. -/
def message_from (tx : Tx) (formatted_date : String) (amount : Int) : String :=
  let money := "$" ++ moneyFmt amount.natAbs
  let emoji := if amount > 0 then "🟢💰" else "🔴💸"
  let direction := if amount > 0 then money ++ " received from" else money ++ " sent to"
  let base : List String :=
    [emoji ++ " " ++ direction ++ " *" ++ tx.counterpartyName.getD "Unknown" ++ "*",
     kind_emoji_of tx.kind ++ " `" ++ tx.kind.getD "unknown" ++ "` • " ++
       status_emoji_of (tx.status.getD "unknown") ++ " `Status: " ++ tx.status.getD "" ++ "`",
     "⏰ " ++ formatted_date]
  let withNote := base ++ (if truthy tx.note then ["📝 " ++ tx.note.getD ""] else [])
  let allParts := withNote ++
    (if truthy tx.dashboardLink then ["🔗 <" ++ tx.dashboardLink.getD "" ++ "|View on Mercury>"] else [])
  joinNl allParts

/-- `format_transaction_for_slack`: the raising `tx["createdAt"]` and
`tx["amount"]` lookups become the `Except.error` branches (a Python
`KeyError`); otherwise the message string is produced. -/
def format_transaction_for_slack (tx : Tx) : Except String String :=
  match tx.createdAt with
  | none => Except.error "KeyError: createdAt"
  | some date_str =>
    let formatted_date := formatted_date_of date_str
    match tx.amount with
    | none => Except.error "KeyError: amount"
    | some amount => Except.ok (message_from tx formatted_date amount)

/-! ### The notification pipeline (Mode A) -/

/-- The in-memory seen-state: account name → seen transaction ids
(a Python `set`, consumed only through membership). -/
abbrev StateMap := String → List String

/-- Line 151 of the source: `[tx for tx in reversed(txs) if tx["id"] not in seen_ids]`. -/
def new_txs_of (txs : List Tx) (seen : List String) : List Tx :=
  txs.reverse.filter fun tx => decide (tx.id ∉ seen)

/-- The delivery oracle of a run in which every webhook post succeeds. -/
def allOk : String → Bool := fun _ => true

/-- The result of one account's delivery loop (lines 157–161): ids
delivered in order, the seen set after the loop, and whether the loop ran
to completion (`ok = false` models the exception propagating out of
`send_to_slack`, or a `KeyError` raised while formatting). -/
structure LoopRes where
  delivered : List String
  seen : List String
  ok : Bool

/-- Lines 157–161: format each new transaction, post it, and add its id to
the seen set immediately after a successful post; a failed post (or a
formatting `KeyError`) raises, leaving the current id un-added. -/
def deliver_loop (sendOk : String → Bool) : List Tx → List String → LoopRes
  | [], seen => ⟨[], seen, true⟩
  | tx :: rest, seen =>
    match format_transaction_for_slack tx with
    | Except.error _ => ⟨[], seen, false⟩
    | Except.ok text =>
      if sendOk text then
        let r := deliver_loop sendOk rest (seen.insert tx.id)
        ⟨tx.id :: r.delivered, r.seen, r.ok⟩
      else ⟨[], seen, false⟩

/-- The outcome of `notify_new_transactions`: the `(account, id)` pairs
delivered in order, the in-memory seen-state when control left the loop,
and whether `save_state` executed (it runs only when no delivery raised). -/
structure RunRes where
  delivered : List (String × String)
  state : StateMap
  saved : Bool

/-- Lines 145–163: iterate the configured accounts in order, filtering
each account's fetched list against its seen set and delivering the
remainder; an exception aborts the whole run. -/
def run_accounts (sendOk : String → Bool) (fetched : String → List Tx) :
    List (String × String) → StateMap → RunRes
  | [], s => ⟨[], s, true⟩
  | (name, aid) :: rest, s =>
    let r := deliver_loop sendOk (new_txs_of (fetched aid) (s name)) (s name)
    let s' : StateMap := fun n => if n = name then r.seen else s n
    if r.ok then
      let q := run_accounts sendOk fetched rest s'
      ⟨r.delivered.map (fun i => (name, i)) ++ q.delivered, q.state, q.saved⟩
    else
      ⟨r.delivered.map (fun i => (name, i)), s', false⟩

/-- `notify_new_transactions` (lines 138–166): load the state (`state0`),
process every account, and persist once at the end; `sendOk` abstracts the
webhook's responses and `fetched` the transactions endpoint
(`fetch_transactions` returns `[]` on fetch errors, which is just another
value of `fetched`). -/
def notify_new_transactions (sendOk : String → Bool) (fetched : String → List Tx)
    (accounts : List (String × String)) (state0 : StateMap) : RunRes :=
  run_accounts sendOk fetched accounts state0

/-- The content of the state file after a run: `save_state` overwrites it
with the final mapping only when the run completed; an aborted run leaves
the previously persisted content untouched. -/
def persistedAfter (r : RunRes) (file0 : StateMap) : StateMap :=
  if r.saved then r.state else file0

/-- The seen set after delivering `txs` on top of `seen` (`set.add` per
transaction). -/
def seenAfter (txs : List Tx) (seen : List String) : List String :=
  txs.foldl (fun s tx => s.insert tx.id) seen

/-! ### Civil-calendar arithmetic (used by the chronological key and by
the spec-modelled Los Angeles conversion) -/

/-- Day number of a civil date counted from 0000-03-01 (Gregorian,
proleptic); standard era/cycle computation, defined for `1 ≤ y`. -/
def daysFromCivilN (y m d : Nat) : Nat :=
  let y' := if m ≤ 2 then y - 1 else y
  let era := y' / 400
  let yoe := y' % 400
  let mp := if 2 < m then m - 3 else m + 9
  let doy := (153 * mp + 2) / 5 + d - 1
  let doe := yoe * 365 + yoe / 4 - yoe / 100 + doy
  era * 146097 + doe

/-- Inverse of `daysFromCivilN`: the civil date of day number `z`. -/
def civilFromDaysN (z : Nat) : Nat × Nat × Nat :=
  let era := z / 146097
  let doe := z % 146097
  let yoe := (doe - doe / 1460 + doe / 36524 - doe / 146096) / 365
  let y := yoe + era * 400
  let doy := doe - (365 * yoe + yoe / 4 - yoe / 100)
  let mp := (5 * doy + 2) / 153
  let d := doy - (153 * mp + 2) / 5 + 1
  let m := if mp < 10 then mp + 3 else mp - 9
  (if m ≤ 2 then y + 1 else y, m, d)

/-- Day of week of day number `z`, with Sunday = 0 (0000-03-01 was a
Wednesday). -/
def dowSun0 (z : Nat) : Nat := (z + 3) % 7

/-- A transaction's chronological key: minutes on the civil timeline of
its parsed `createdAt` (0 when absent or unparseable), used to express
"newest first" / "oldest first". -/
def txTimeKey (tx : Tx) : Nat :=
  match tx.createdAt with
  | some s =>
    match pyParseIso (replaceZ s) with
    | some dt => daysFromCivilN dt.year dt.month dt.day * 1440 + dt.hour * 60 + dt.minute
    | none => 0
  | none => 0

/-! ### Spec-modelled America/Los_Angeles rendering -/

/-- Modelled from the spec: the source contains no time-zone conversion,
so the spec's "converted to a fixed local time zone (America/Los_Angeles,
handling standard/daylight offset automatically)" is modelled here for
comparison. United States daylight-saving rule (2007 onward): in effect
from the second Sunday of March through the day before the first Sunday of
November (transition days attributed at day granularity). -/
def inLaDst (y m d : Nat) : Bool :=
  if m < 3 then false
  else if m = 3 then
    let w := dowSun0 (daysFromCivilN y 3 1)
    decide (8 + (7 - w) % 7 ≤ d)
  else if m < 11 then true
  else if m = 11 then
    let w := dowSun0 (daysFromCivilN y 11 1)
    decide (d < 1 + (7 - w) % 7)
  else false

/-- Modelled from the spec: render an aware datetime converted to
America/Los_Angeles (UTC−8, or UTC−7 during daylight saving) in the same
12-hour format the formatter uses. A missing offset is treated as UTC,
matching the spec's "the record's UTC creation time". -/
def la_formatted_date (dt : PyDateTime) : String :=
  let off := dt.tzOffsetMin.getD 0
  let utcMin : Int :=
    (daysFromCivilN dt.year dt.month dt.day : Int) * 1440 + dt.hour * 60 + dt.minute - off
  let stdMin := (utcMin - 480).toNat
  let (ys, ms, ds) := civilFromDaysN (stdMin / 1440)
  let laMin := if inLaDst ys ms ds then stdMin + 60 else stdMin
  let (y2, m2, d2) := civilFromDaysN (laMin / 1440)
  pyStrftime ⟨y2, m2, d2, laMin % 1440 / 60, laMin % 1440 % 60, dt.second, dt.microsecond,
    some (if inLaDst ys ms ds then -420 else -480)⟩

/-! ### Helper lemmas about the delivery loop -/

theorem deliver_loop_seen_mono (sendOk : String → Bool) (txs : List Tx) (seen : List String)
    {x : String} (hx : x ∈ seen) : x ∈ (deliver_loop sendOk txs seen).seen := by
  induction txs generalizing seen with
  | nil => exact hx
  | cons tx rest ih =>
    simp only [deliver_loop]
    cases hf : format_transaction_for_slack tx with
    | error e => exact hx
    | ok text =>
      by_cases hs : sendOk text = true
      · simp only [hs, if_true]
        exact ih (seen.insert tx.id) (List.mem_insert_of_mem hx)
      · simp only [hs, if_false, Bool.false_eq_true]
        exact hx

theorem deliver_loop_ok_covers (sendOk : String → Bool) (txs : List Tx) (seen : List String)
    (hok : (deliver_loop sendOk txs seen).ok = true) :
    ∀ tx ∈ txs, tx.id ∈ (deliver_loop sendOk txs seen).seen := by
  induction txs generalizing seen with
  | nil => intro tx h; cases h
  | cons tx rest ih =>
    intro tx' htx'
    simp only [deliver_loop] at hok ⊢
    cases hf : format_transaction_for_slack tx with
    | error e => simp [hf] at hok
    | ok text =>
      by_cases hs : sendOk text = true
      · simp only [hf, hs, if_true] at hok ⊢
        rcases List.mem_cons.mp htx' with rfl | hmem
        · exact deliver_loop_seen_mono sendOk rest _ (List.mem_insert_self tx'.id seen)
        · exact ih (seen.insert tx.id) hok tx' hmem
      · simp [hf, hs] at hok


theorem deliver_loop_delivered_in_seen (sendOk : String → Bool) (txs : List Tx)
    (seen : List String) :
    ∀ i ∈ (deliver_loop sendOk txs seen).delivered, i ∈ (deliver_loop sendOk txs seen).seen := by
  induction txs generalizing seen with
  | nil => intro i h; cases h
  | cons tx rest ih =>
    intro i hi
    simp only [deliver_loop] at hi ⊢
    cases hf : format_transaction_for_slack tx with
    | error e => simp [hf] at hi
    | ok text =>
      by_cases hs : sendOk text = true
      · simp only [hf, hs, if_true] at hi ⊢
        rcases List.mem_cons.mp hi with rfl | hmem
        · exact deliver_loop_seen_mono sendOk rest _ (List.mem_insert_self tx.id seen)
        · exact ih (seen.insert tx.id) i hmem
      · simp [hf, hs] at hi

theorem deliver_loop_allOk (txs : List Tx) (seen : List String)
    (hfmt : ∀ tx ∈ txs, (format_transaction_for_slack tx).isOk = true) :
    deliver_loop allOk txs seen = ⟨txs.map (·.id), seenAfter txs seen, true⟩ := by
  induction txs generalizing seen with
  | nil => rfl
  | cons tx rest ih =>
    have htx : (format_transaction_for_slack tx).isOk = true :=
      hfmt tx (List.mem_cons_self tx rest)
    cases hf : format_transaction_for_slack tx with
    | error e => rw [hf] at htx; simp [Except.isOk, Except.toBool] at htx
    | ok text =>
      simp only [deliver_loop, hf, allOk, if_true]
      rw [ih (seen.insert tx.id) (fun t ht => hfmt t (List.mem_cons_of_mem tx ht))]
      simp [seenAfter]

theorem deliver_loop_agree (sendOk : String → Bool) (txs : List Tx) (seen : List String)
    (hfmt : ∀ tx ∈ txs, (format_transaction_for_slack tx).isOk = true) :
    (∃ t, txs.map (·.id) = (deliver_loop sendOk txs seen).delivered ++ t) ∧
    ((deliver_loop sendOk txs seen).ok = true →
      (deliver_loop sendOk txs seen).delivered = txs.map (·.id) ∧
      (deliver_loop sendOk txs seen).seen = seenAfter txs seen) := by
  induction txs generalizing seen with
  | nil => exact ⟨⟨[], rfl⟩, fun _ => ⟨rfl, rfl⟩⟩
  | cons tx rest ih =>
    have htx : (format_transaction_for_slack tx).isOk = true :=
      hfmt tx (List.mem_cons_self tx rest)
    cases hf : format_transaction_for_slack tx with
    | error e => rw [hf] at htx; simp [Except.isOk, Except.toBool] at htx
    | ok text =>
      by_cases hs : sendOk text = true
      · have ihr := ih (seen.insert tx.id) (fun t ht => hfmt t (List.mem_cons_of_mem tx ht))
        simp only [deliver_loop, hf, hs, if_true]
        constructor
        · obtain ⟨t, ht⟩ := ihr.1
          exact ⟨t, by simp only [List.map_cons, ht, List.cons_append]⟩
        · intro hok
          obtain ⟨hd, hsn⟩ := ihr.2 hok
          exact ⟨by simp [hd], by simp [hsn, seenAfter]⟩
      · simp only [deliver_loop, hf, hs, if_false, Bool.false_eq_true]
        exact ⟨⟨(tx :: rest).map (·.id), (List.nil_append _).symm⟩, fun h => by simp at h⟩

/-! ### Helper lemmas about the account loop -/

theorem run_accounts_state_mono (sendOk : String → Bool) (fetched : String → List Tx)
    (accounts : List (String × String)) (s : StateMap) {n : String} {x : String}
    (hx : x ∈ s n) : x ∈ (run_accounts sendOk fetched accounts s).state n := by
  induction accounts generalizing s with
  | nil => exact hx
  | cons head rest ih =>
    obtain ⟨name, aid⟩ := head
    simp only [run_accounts]
    set r := deliver_loop sendOk (new_txs_of (fetched aid) (s name)) (s name) with hr
    have hs' : x ∈ (fun n' => if n' = name then r.seen else s n') n := by
      by_cases he : n = name
      · subst he; simp only [if_pos rfl]
        exact deliver_loop_seen_mono sendOk _ _ hx
      · simpa [he] using hx
    by_cases hok : r.ok = true
    · simp only [hok, if_true]
      exact ih _ hs'
    · simp only [hok, if_false, Bool.false_eq_true]
      exact hs'

theorem run_accounts_saved_covers (sendOk : String → Bool) (fetched : String → List Tx)
    (accounts : List (String × String)) (s : StateMap)
    (hsv : (run_accounts sendOk fetched accounts s).saved = true) :
    ∀ p ∈ accounts, ∀ tx ∈ fetched p.2, tx.id ∈ (run_accounts sendOk fetched accounts s).state p.1 := by
  induction accounts generalizing s with
  | nil => intro p hp; cases hp
  | cons head rest ih =>
    obtain ⟨name, aid⟩ := head
    intro p hp tx htx
    simp only [run_accounts] at hsv ⊢
    set r := deliver_loop sendOk (new_txs_of (fetched aid) (s name)) (s name) with hr
    by_cases hok : r.ok = true
    · simp only [hok, if_true] at hsv ⊢
      rcases List.mem_cons.mp hp with rfl | hmem
      · -- the account just processed: every fetched id is in the updated seen set
        have hid : tx.id ∈ r.seen := by
          by_cases hin : tx.id ∈ s name
          · exact deliver_loop_seen_mono sendOk _ _ hin
          · have htx' : tx ∈ new_txs_of (fetched aid) (s name) := by
              simp only [new_txs_of, List.mem_filter, List.mem_reverse]
              exact ⟨htx, by simpa using hin⟩
            exact deliver_loop_ok_covers sendOk _ _ hok tx htx'
        have : tx.id ∈ (fun n' => if n' = name then r.seen else s n') name := by
          simpa using hid
        exact run_accounts_state_mono sendOk fetched rest _ this
      · exact ih _ hsv p hmem tx htx
    · simp [hok] at hsv

theorem run_accounts_delivered_in_state (sendOk : String → Bool) (fetched : String → List Tx)
    (accounts : List (String × String)) (s : StateMap) :
    ∀ p ∈ (run_accounts sendOk fetched accounts s).delivered,
      p.2 ∈ (run_accounts sendOk fetched accounts s).state p.1 := by
  induction accounts generalizing s with
  | nil => intro p hp; cases hp
  | cons head rest ih =>
    obtain ⟨name, aid⟩ := head
    intro p hp
    simp only [run_accounts] at hp ⊢
    set r := deliver_loop sendOk (new_txs_of (fetched aid) (s name)) (s name) with hr
    by_cases hok : r.ok = true
    · simp only [hok, if_true] at hp ⊢
      rcases List.mem_append.mp hp with hmap | hq
      · obtain ⟨i, hi, rfl⟩ := List.mem_map.mp hmap
        have hseen : i ∈ r.seen := deliver_loop_delivered_in_seen sendOk _ _ i hi
        have : i ∈ (fun n' => if n' = name then r.seen else s n') name := by simpa using hseen
        exact run_accounts_state_mono sendOk fetched rest _ this
      · exact ih _ p hq
    · simp only [hok, if_false, Bool.false_eq_true] at hp ⊢
      obtain ⟨i, hi, rfl⟩ := List.mem_map.mp hp
      have hseen : i ∈ r.seen := deliver_loop_delivered_in_seen sendOk _ _ i hi
      simpa using hseen

theorem run_accounts_covered_empty (fetched : String → List Tx)
    (accounts : List (String × String)) (s : StateMap)
    (hcov : ∀ p ∈ accounts, ∀ tx ∈ fetched p.2, tx.id ∈ s p.1) :
    run_accounts allOk fetched accounts s = ⟨[], s, true⟩ := by
  induction accounts generalizing s with
  | nil => rfl
  | cons head rest ih =>
    obtain ⟨name, aid⟩ := head
    have hnil : new_txs_of (fetched aid) (s name) = [] := by
      simp only [new_txs_of]
      rw [List.filter_reverse]
      have hfe : (fetched aid).filter (fun tx => decide (tx.id ∉ s name)) = [] := by
        rw [List.filter_eq_nil_iff]
        intro tx htx
        simp only [decide_eq_true_eq, not_not]
        exact hcov (name, aid) (List.mem_cons_self _ _) tx htx
      rw [hfe]; rfl
    have hs' : (fun n' => if n' = name then s name else s n') = s := by
      funext n'
      by_cases he : n' = name
      · subst he; simp
      · simp [he]
    simp only [run_accounts, hnil, deliver_loop]
    simp only [hs', ih s (fun p hp => hcov p (List.mem_cons_of_mem _ hp))]
    simp

theorem run_accounts_delivered_prefix (sendOk : String → Bool) (fetched : String → List Tx)
    (accounts : List (String × String)) (s : StateMap)
    (hfmt : ∀ p ∈ accounts, ∀ tx ∈ fetched p.2, (format_transaction_for_slack tx).isOk = true) :
    ∃ t, (run_accounts allOk fetched accounts s).delivered =
      (run_accounts sendOk fetched accounts s).delivered ++ t := by
  induction accounts generalizing s with
  | nil => exact ⟨[], rfl⟩
  | cons head rest ih =>
    obtain ⟨name, aid⟩ := head
    have hfhead : ∀ tx ∈ new_txs_of (fetched aid) (s name),
        (format_transaction_for_slack tx).isOk = true := by
      intro tx htx
      have h2 := htx
      simp only [new_txs_of, List.mem_filter, List.mem_reverse, decide_eq_true_eq] at h2
      exact hfmt (name, aid) (List.mem_cons_self _ _) tx h2.1
    have hA := deliver_loop_allOk (new_txs_of (fetched aid) (s name)) (s name) hfhead
    have hAg := deliver_loop_agree sendOk (new_txs_of (fetched aid) (s name)) (s name) hfhead
    simp only [run_accounts, hA, if_true]
    set r := deliver_loop sendOk (new_txs_of (fetched aid) (s name)) (s name) with hr
    by_cases hok : r.ok = true
    · obtain ⟨hd, hsn⟩ := hAg.2 hok
      simp only [hok, if_true]
      have hstate : (fun n' => if n' = name then
            seenAfter (new_txs_of (fetched aid) (s name)) (s name) else s n') =
          (fun n' => if n' = name then r.seen else s n') := by
        funext n'; by_cases he : n' = name <;> simp [he, hsn]
      obtain ⟨t, htmain⟩ := ih (fun n' => if n' = name then r.seen else s n')
        (fun p hp => hfmt p (List.mem_cons_of_mem _ hp))
      refine ⟨t, ?_⟩
      rw [hstate, htmain, hd]
      simp [List.append_assoc]
    · simp only [hok, if_false, Bool.false_eq_true]
      obtain ⟨t0, ht0⟩ := hAg.1
      refine ⟨t0.map (fun i => (name, i)) ++
        (run_accounts allOk fetched rest
          (fun n' => if n' = name then seenAfter (new_txs_of (fetched aid) (s name)) (s name)
            else s n')).delivered, ?_⟩
      rw [ht0]
      simp [List.append_assoc]

/-! ### Witness fixtures: a tiny concrete configuration -/

def txWa : Tx := { id := "ta", amount := some 100, createdAt := some "2024-01-01T10:00:00Z" }

def txWb : Tx := { id := "tb", amount := some (-200), createdAt := some "2024-01-01T11:00:00Z" }

/-- Fetch returns the same two transactions, newest first, for every account. -/
def fetchedW : String → List Tx := fun _ => [txWb, txWa]

def stateW : StateMap := fun _ => []

def accountsW : List (String × String) := [("IN", "a1")]

/-- A delivery oracle that accepts inbound-styled messages and rejects the
rest. -/
def sendOkW : String → Bool := fun t => strStarts t "🟢"

/-! ### C1 — dedup idempotence -/

/-- C1: in a completed Mode A run every delivered transaction identifier
ends up in the persisted seen-state of its account, and a second run of
the pipeline starting from that persisted state, fed the same transaction
lists, delivers zero messages. -/
theorem dedup_idempotent (accounts : List (String × String)) (fetched : String → List Tx)
    (file0 : StateMap)
    (h : (notify_new_transactions allOk fetched accounts file0).saved = true) :
    (notify_new_transactions allOk fetched accounts
        (persistedAfter (notify_new_transactions allOk fetched accounts file0) file0)).delivered
      = [] ∧
    ∀ p ∈ (notify_new_transactions allOk fetched accounts file0).delivered,
      p.2 ∈ persistedAfter (notify_new_transactions allOk fetched accounts file0) file0 p.1 := by
  have hpa : persistedAfter (notify_new_transactions allOk fetched accounts file0) file0 =
      (notify_new_transactions allOk fetched accounts file0).state := by
    simp [persistedAfter, h]
  constructor
  · rw [hpa]
    have hcov := run_accounts_saved_covers allOk fetched accounts file0 h
    show (run_accounts allOk fetched accounts
      ((run_accounts allOk fetched accounts file0).state)).delivered = []
    rw [run_accounts_covered_empty fetched accounts _ hcov]
  · rw [hpa]
    exact run_accounts_delivered_in_state allOk fetched accounts file0

theorem dedup_idempotent_witness :
    (notify_new_transactions allOk fetchedW accountsW
        (persistedAfter (notify_new_transactions allOk fetchedW accountsW stateW) stateW)).delivered
      = [] :=
  (dedup_idempotent accountsW fetchedW stateW rfl).1

/-! ### C2 — chronological delivery order -/

/-- C2: when an account's fetched list is newest-first (descending
chronological key), the list the pipeline delivers — `new_txs_of`, walked
front to back by `deliver_loop` — is the reverse of the filtered fetched
list and is oldest-first (ascending chronological key). -/
theorem chronological_delivery (txs : List Tx) (seen : List String)
    (hdesc : txs.Pairwise fun a b => txTimeKey b ≤ txTimeKey a) :
    new_txs_of txs seen = (txs.filter fun tx => decide (tx.id ∉ seen)).reverse ∧
    (new_txs_of txs seen).Pairwise fun a b => txTimeKey a ≤ txTimeKey b := by
  constructor
  · simp [new_txs_of, List.filter_reverse]
  · exact (List.pairwise_reverse.mpr hdesc).filter _

def txsW2 : List Tx :=
  [{ id := "tc", createdAt := some "2024-01-03T00:00:00Z" },
   { id := "tb2", createdAt := some "2024-01-02T00:00:00Z" },
   { id := "ta2", createdAt := some "2024-01-01T00:00:00Z" }]

theorem chronological_delivery_witness :
    new_txs_of txsW2 ["tb2"] = (txsW2.filter fun tx => decide (tx.id ∉ ["tb2"])).reverse ∧
    (new_txs_of txsW2 ["tb2"]).Pairwise (fun a b => txTimeKey a ≤ txTimeKey b) :=
  chronological_delivery txsW2 ["tb2"] (by decide)

/-! ### C8 — delivery failure aborts the run -/

/-- C8: if a run in which every fetched transaction formats successfully
aborts (a webhook post failed, the exception re-raised out of
`send_to_slack`), then `save_state` never ran — the persisted file is left
unchanged — and the aborted run's deliveries are an initial segment of
what an all-success run from the same state delivers, so the messages
already delivered would be re-delivered by the next run. -/
theorem delivery_failure_aborts (accounts : List (String × String))
    (fetched : String → List Tx) (sendOk : String → Bool) (file0 : StateMap)
    (hfmt : ∀ p ∈ accounts, ∀ tx ∈ fetched p.2, (format_transaction_for_slack tx).isOk = true)
    (h : (notify_new_transactions sendOk fetched accounts file0).saved = false) :
    persistedAfter (notify_new_transactions sendOk fetched accounts file0) file0 = file0 ∧
    ∃ t, (notify_new_transactions allOk fetched accounts file0).delivered =
      (notify_new_transactions sendOk fetched accounts file0).delivered ++ t := by
  refine ⟨by simp [persistedAfter, h], ?_⟩
  exact run_accounts_delivered_prefix sendOk fetched accounts file0 hfmt

theorem delivery_failure_aborts_witness :
    ∃ t, (notify_new_transactions allOk fetchedW accountsW stateW).delivered =
      (notify_new_transactions sendOkW fetchedW accountsW stateW).delivered ++ t :=
  (delivery_failure_aborts accountsW fetchedW sendOkW stateW (by decide) rfl).2

/-! ### C10 — formatter preconditions -/

/-- C10: the formatter raises a key-lookup error exactly when `createdAt`
or `amount` is absent (`createdAt` checked first), and under the
precondition that both exist it is total — it returns `Except.ok` for
every combination of the remaining optional fields. -/
theorem formatter_field_preconditions (tx : Tx) :
    ((format_transaction_for_slack tx).isOk = true ↔
      tx.createdAt.isSome = true ∧ tx.amount.isSome = true) ∧
    (tx.createdAt = none →
      format_transaction_for_slack tx = Except.error "KeyError: createdAt") ∧
    (∀ s, tx.createdAt = some s → tx.amount = none →
      format_transaction_for_slack tx = Except.error "KeyError: amount") := by
  refine ⟨?_, ?_, ?_⟩
  · cases hc : tx.createdAt with
    | none => simp [format_transaction_for_slack, hc, Except.isOk, Except.toBool]
    | some s =>
      cases ha : tx.amount with
      | none => simp [format_transaction_for_slack, hc, ha, Except.isOk, Except.toBool]
      | some a => simp [format_transaction_for_slack, hc, ha, Except.isOk, Except.toBool]
  · intro hc
    simp [format_transaction_for_slack, hc]
  · intro s hc ha
    simp [format_transaction_for_slack, hc, ha]

theorem formatter_field_preconditions_witness :
    format_transaction_for_slack { id := "w" } = Except.error "KeyError: createdAt" :=
  (formatter_field_preconditions { id := "w" }).2.1 rfl

/-! ### C5 — direction, icon and absolute amount by sign -/

/-- C5: a positive amount renders the inbound icon and "received from",
a negative amount the outbound icon and "sent to"; in both cases the
rendered amount is the absolute value formatted as currency
(`moneyFmt`). The first message line is stated exactly. -/
theorem direction_by_sign (tx : Tx) (a : Int) (s : String)
    (hc : tx.createdAt = some s) (ha : tx.amount = some a) :
    (a > 0 → ∃ rest, format_transaction_for_slack tx = Except.ok (joinNl
      (("🟢💰" ++ " " ++ ("$" ++ moneyFmt a.natAbs ++ " received from") ++ " *" ++
        tx.counterpartyName.getD "Unknown" ++ "*") :: rest))) ∧
    (a < 0 → ∃ rest, format_transaction_for_slack tx = Except.ok (joinNl
      (("🔴💸" ++ " " ++ ("$" ++ moneyFmt a.natAbs ++ " sent to") ++ " *" ++
        tx.counterpartyName.getD "Unknown" ++ "*") :: rest))) := by
  constructor
  · intro hpos
    refine ⟨[kind_emoji_of tx.kind ++ " `" ++ tx.kind.getD "unknown" ++ "` • " ++
        status_emoji_of (tx.status.getD "unknown") ++ " `Status: " ++ tx.status.getD "" ++ "`",
        "⏰ " ++ formatted_date_of s] ++
        (if truthy tx.note then ["📝 " ++ tx.note.getD ""] else []) ++
        (if truthy tx.dashboardLink then
          ["🔗 <" ++ tx.dashboardLink.getD "" ++ "|View on Mercury>"] else []), ?_⟩
    simp [format_transaction_for_slack, hc, ha, message_from, hpos]
  · intro hneg
    have hng : ¬ a > 0 := by omega
    refine ⟨[kind_emoji_of tx.kind ++ " `" ++ tx.kind.getD "unknown" ++ "` • " ++
        status_emoji_of (tx.status.getD "unknown") ++ " `Status: " ++ tx.status.getD "" ++ "`",
        "⏰ " ++ formatted_date_of s] ++
        (if truthy tx.note then ["📝 " ++ tx.note.getD ""] else []) ++
        (if truthy tx.dashboardLink then
          ["🔗 <" ++ tx.dashboardLink.getD "" ++ "|View on Mercury>"] else []), ?_⟩
    simp [format_transaction_for_slack, hc, ha, message_from, hng]

theorem direction_by_sign_witness :
    ∃ rest, format_transaction_for_slack txWa = Except.ok (joinNl
      (("🟢💰" ++ " " ++ ("$" ++ moneyFmt (100 : Int).natAbs ++ " received from") ++ " *" ++
        txWa.counterpartyName.getD "Unknown" ++ "*") :: rest)) :=
  (direction_by_sign txWa 100 "2024-01-01T10:00:00Z" rfl rfl).1 (by decide)

/-! ### C9 — zero amount falls on the outbound branch -/

/-- C9: an amount of exactly 0 takes the `else` branch of the sign test:
the outbound icon, the "sent to" phrasing, and the amount rendered as
`$0.00`. -/
theorem zero_amount_outbound (tx : Tx) (s : String)
    (hc : tx.createdAt = some s) (ha : tx.amount = some 0) :
    ∃ rest, format_transaction_for_slack tx = Except.ok (joinNl
      (("🔴💸" ++ " " ++ ("$0.00" ++ " sent to") ++ " *" ++
        tx.counterpartyName.getD "Unknown" ++ "*") :: rest)) := by
  have hng : ¬ (0 : Int) > 0 := by omega
  refine ⟨[kind_emoji_of tx.kind ++ " `" ++ tx.kind.getD "unknown" ++ "` • " ++
      status_emoji_of (tx.status.getD "unknown") ++ " `Status: " ++ tx.status.getD "" ++ "`",
      "⏰ " ++ formatted_date_of s] ++
      (if truthy tx.note then ["📝 " ++ tx.note.getD ""] else []) ++
      (if truthy tx.dashboardLink then
        ["🔗 <" ++ tx.dashboardLink.getD "" ++ "|View on Mercury>"] else []), ?_⟩
  simp [format_transaction_for_slack, hc, ha, message_from, hng]
  rfl

theorem zero_amount_outbound_witness :
    ∃ rest, format_transaction_for_slack { id := "z", amount := some 0, createdAt := some "x" }
      = Except.ok (joinNl (("🔴💸" ++ " " ++ ("$0.00" ++ " sent to") ++ " *" ++
        (({ id := "z", amount := some 0, createdAt := some "x" } : Tx)).counterpartyName.getD
          "Unknown" ++ "*") :: rest)) :=
  zero_amount_outbound { id := "z", amount := some 0, createdAt := some "x" } "x" rfl rfl

/-! ### C7 — malformed timestamp falls back to the raw string -/

/-- C7: when `createdAt` cannot be parsed, the formatter still returns a
message; its timestamp line carries the original string unchanged and the
remaining lines are built as usual. -/
theorem malformed_timestamp_fallback (tx : Tx) (s : String) (a : Int)
    (hc : tx.createdAt = some s) (ha : tx.amount = some a)
    (hbad : pyParseIso (replaceZ s) = none) :
    ∃ p1 p2 tail, format_transaction_for_slack tx =
      Except.ok (joinNl (p1 :: p2 :: ("⏰ " ++ s) :: tail)) := by
  refine ⟨(if a > 0 then "🟢💰" else "🔴💸") ++ " " ++
      (if a > 0 then "$" ++ moneyFmt a.natAbs ++ " received from"
        else "$" ++ moneyFmt a.natAbs ++ " sent to") ++ " *" ++
      tx.counterpartyName.getD "Unknown" ++ "*",
    kind_emoji_of tx.kind ++ " `" ++ tx.kind.getD "unknown" ++ "` • " ++
      status_emoji_of (tx.status.getD "unknown") ++ " `Status: " ++ tx.status.getD "" ++ "`",
    (if truthy tx.note then ["📝 " ++ tx.note.getD ""] else []) ++
      (if truthy tx.dashboardLink then
        ["🔗 <" ++ tx.dashboardLink.getD "" ++ "|View on Mercury>"] else []), ?_⟩
  simp [format_transaction_for_slack, hc, ha, message_from, formatted_date_of, hbad]

theorem malformed_timestamp_fallback_witness :
    ∃ p1 p2 tail, format_transaction_for_slack
        { id := "m", amount := some (-2500), createdAt := some "yesterday" } =
      Except.ok (joinNl (p1 :: p2 :: ("⏰ " ++ "yesterday") :: tail)) :=
  malformed_timestamp_fallback
    { id := "m", amount := some (-2500), createdAt := some "yesterday" }
    "yesterday" (-2500) rfl rfl (by decide)

/-! ### C3 — the timestamp line does not convert to America/Los_Angeles -/

/-- C3 counterexample: at noon UTC on 2024-01-01 the code's timestamp
rendering is the UTC wall clock, `12:00 PM`, while the
America/Los_Angeles conversion the spec describes would render
`4:00 AM` (Pacific standard time, UTC−8): the two differ. -/
theorem la_conversion_counterexample :
    pyParseIso (replaceZ "2024-01-01T12:00:00Z") =
      some ⟨2024, 1, 1, 12, 0, 0, 0, some 0⟩ ∧
    formatted_date_of "2024-01-01T12:00:00Z" = "12:00 PM on January 01, 2024" ∧
    la_formatted_date ⟨2024, 1, 1, 12, 0, 0, 0, some 0⟩ = "4:00 AM on January 01, 2024" ∧
    formatted_date_of "2024-01-01T12:00:00Z" ≠
      la_formatted_date ⟨2024, 1, 1, 12, 0, 0, 0, some 0⟩ :=
  ⟨by decide, by decide, by decide, by decide⟩

/-- C3 amended: for a parseable `createdAt` the timestamp line renders the
parsed datetime's own (UTC) wall-clock fields through the 12-hour
`strftime` format, with no time-zone conversion applied. -/
theorem timestamp_renders_parsed_utc (tx : Tx) (s : String) (dt : PyDateTime) (a : Int)
    (hc : tx.createdAt = some s) (ha : tx.amount = some a)
    (hparse : pyParseIso (replaceZ s) = some dt) :
    ∃ p1 p2 tail, format_transaction_for_slack tx =
      Except.ok (joinNl (p1 :: p2 :: ("⏰ " ++ pyStrftime dt) :: tail)) := by
  refine ⟨(if a > 0 then "🟢💰" else "🔴💸") ++ " " ++
      (if a > 0 then "$" ++ moneyFmt a.natAbs ++ " received from"
        else "$" ++ moneyFmt a.natAbs ++ " sent to") ++ " *" ++
      tx.counterpartyName.getD "Unknown" ++ "*",
    kind_emoji_of tx.kind ++ " `" ++ tx.kind.getD "unknown" ++ "` • " ++
      status_emoji_of (tx.status.getD "unknown") ++ " `Status: " ++ tx.status.getD "" ++ "`",
    (if truthy tx.note then ["📝 " ++ tx.note.getD ""] else []) ++
      (if truthy tx.dashboardLink then
        ["🔗 <" ++ tx.dashboardLink.getD "" ++ "|View on Mercury>"] else []), ?_⟩
  simp [format_transaction_for_slack, hc, ha, message_from, formatted_date_of, hparse]

theorem timestamp_renders_parsed_utc_witness :
    ∃ p1 p2 tail, format_transaction_for_slack txWa =
      Except.ok (joinNl (p1 :: p2 ::
        ("⏰ " ++ pyStrftime ⟨2024, 1, 1, 10, 0, 0, 0, some 0⟩) :: tail)) :=
  timestamp_renders_parsed_utc txWa "2024-01-01T10:00:00Z"
    ⟨2024, 1, 1, 10, 0, 0, 0, some 0⟩ 100 rfl rfl (by decide)

/-! ### C4 — the counterparty is never resolved against configured accounts -/

def tx4 : Tx :=
  { id := "t4", amount := some 500, createdAt := some "2024-01-01T12:00:00Z",
    counterpartyId := some "a1", counterpartyName := some "Mercury Checking" }

/-- C4 counterexample: `tx4`'s counterparty identifier is exactly the
account id configured for the logical name `IN`, yet the formatted
message shows the raw counterparty display name and the logical name
`IN` appears nowhere — the formatter never consults the account map. -/
theorem counterparty_resolution_counterexample :
    ("IN", "a1") ∈ accountsW ∧
    tx4.counterpartyId = some "a1" ∧
    format_transaction_for_slack tx4 = Except.ok
      ("🟢💰 $5.00 received from *Mercury Checking*\n❓ `unknown` • ❓ `Status: `" ++
        "\n⏰ 12:00 PM on January 01, 2024") ∧
    strHasSub ("🟢💰 $5.00 received from *Mercury Checking*\n❓ `unknown` • ❓ `Status: `" ++
        "\n⏰ 12:00 PM on January 01, 2024") "Mercury Checking" = true ∧
    strHasSub ("🟢💰 $5.00 received from *Mercury Checking*\n❓ `unknown` • ❓ `Status: `" ++
        "\n⏰ 12:00 PM on January 01, 2024") "IN" = false :=
  ⟨by decide, by decide, rfl, by decide, by decide⟩

/-- C4 amended: the formatted message is entirely independent of the
counterparty identifier (no resolution against configured accounts
happens), and the name shown is always the counterparty display name,
defaulting to `Unknown` when absent. -/
theorem counterparty_always_display_name (tx : Tx) (cid cid' : Option String) :
    (format_transaction_for_slack { tx with counterpartyId := cid } =
      format_transaction_for_slack { tx with counterpartyId := cid' }) ∧
    (∀ s, tx.createdAt = some s → ∀ a, tx.amount = some a →
      ∃ rest, format_transaction_for_slack tx = Except.ok (joinNl
        (((if a > 0 then "🟢💰" else "🔴💸") ++ " " ++
          (if a > 0 then "$" ++ moneyFmt a.natAbs ++ " received from"
            else "$" ++ moneyFmt a.natAbs ++ " sent to") ++ " *" ++
          tx.counterpartyName.getD "Unknown" ++ "*") :: rest))) := by
  constructor
  · rfl
  · intro s hc a ha
    refine ⟨[kind_emoji_of tx.kind ++ " `" ++ tx.kind.getD "unknown" ++ "` • " ++
        status_emoji_of (tx.status.getD "unknown") ++ " `Status: " ++ tx.status.getD "" ++ "`",
        "⏰ " ++ formatted_date_of s] ++
        (if truthy tx.note then ["📝 " ++ tx.note.getD ""] else []) ++
        (if truthy tx.dashboardLink then
          ["🔗 <" ++ tx.dashboardLink.getD "" ++ "|View on Mercury>"] else []), ?_⟩
    simp [format_transaction_for_slack, hc, ha, message_from]

theorem counterparty_always_display_name_witness :
    ∃ rest, format_transaction_for_slack tx4 = Except.ok (joinNl
      (((if (500 : Int) > 0 then "🟢💰" else "🔴💸") ++ " " ++
        (if (500 : Int) > 0 then "$" ++ moneyFmt (500 : Int).natAbs ++ " received from"
          else "$" ++ moneyFmt (500 : Int).natAbs ++ " sent to") ++ " *" ++
        tx4.counterpartyName.getD "Unknown" ++ "*") :: rest)) :=
  (counterparty_always_display_name tx4 none none).2
    "2024-01-01T12:00:00Z" rfl 500 rfl

/-! ### C6 — the worked example from the spec -/

def tx6 : Tx :=
  { id := "t1", amount := some 15000, createdAt := some "2024-01-01T12:00:00Z",
    counterpartyName := some "Acme", kind := some "outgoingPayment", status := some "sent" }

def msg6 : String :=
  "🟢💰 $150.00 received from *Acme*\n📤 `outgoingPayment` • ✅ `Status: sent`" ++
    "\n⏰ 12:00 PM on January 01, 2024"

/-- C6 counterexample: on the spec's example transaction (positive amount
150.00) the code produces a message that starts with the inbound icon and
"received from"; it neither starts with the outbound icon nor contains
"$150.00 sent to Acme", and its timestamp line shows noon UTC rather than
the America/Los_Angeles conversion (4:00 AM). -/
theorem example_message_counterexample :
    format_transaction_for_slack tx6 = Except.ok msg6 ∧
    strStarts msg6 "🔴💸" = false ∧
    strHasSub msg6 "$150.00 sent to Acme" = false ∧
    strHasSub msg6 (la_formatted_date ⟨2024, 1, 1, 12, 0, 0, 0, some 0⟩) = false :=
  ⟨rfl, by decide, by decide, by decide⟩

/-- C6 amended: the example transaction's message begins with the inbound
icon and `$150.00 received from *Acme*` (the amount is positive, so the
sign rule selects the inbound branch), its category line carries
`outgoingPayment` and `sent`, and its timestamp line renders noon UTC
unconverted: `12:00 PM on January 01, 2024`. -/
theorem example_message_exact :
    format_transaction_for_slack tx6 = Except.ok msg6 ∧
    strStarts msg6 "🟢💰 $150.00 received from *Acme*" = true ∧
    strHasSub msg6 "`outgoingPayment`" = true ∧
    strHasSub msg6 "`Status: sent`" = true ∧
    strHasSub msg6 "⏰ 12:00 PM on January 01, 2024" = true :=
  ⟨rfl, by decide, by decide, by decide, by decide⟩

end MercuryBot
